import Mathlib

/-!
A shallow embedding of the `m3u2strm` pipeline (`task.py`): playlist parsing,
classification into series / movies / live collections, and the incremental
sync stage that writes STRM pointer files and the aggregate live manifest,
guarded by a checksum store.

Filesystem state is modelled as an association list from base-relative path to
file content; the checksum store as an association list from relative path to
fingerprint string.  Paths are kept relative to the output base directory
(`base_path` is constant within a run, so `os.path.relpath` keying and on-disk
paths are in bijection).  Write failures (`IOError`) are modelled by a set of
paths whose writes raise.  Logging, directory creation and network I/O carry
no pipeline-visible state and are not modelled.
-/

namespace M3u2strm

/-! ## Python string primitives

Python `str.strip()` / `str.rstrip(chars)` and the `re` character class `\s`
over the ASCII range (the pipeline's titles are ASCII-oriented; the unicode
extensions of `\s`, `\d` and `str.lower` are not modelled). -/

def pyIsSpace (c : Char) : Bool :=
  c == ' ' || c == '\t' || c == '\n' || c == '\r' || c == '\x0b' || c == '\x0c'

def pyStripL (s : List Char) : List Char :=
  (((s.dropWhile pyIsSpace).reverse).dropWhile pyIsSpace).reverse

/-- Python `str.strip()`. -/
def pyStripS (s : String) : String :=
  String.mk (pyStripL s.data)

/-- Python `str.rstrip(chars)` for an explicit character set. -/
def pyRStrip (chars : List Char) (s : List Char) : List Char :=
  ((s.reverse).dropWhile (fun c => chars.contains c)).reverse

/-- Python ASCII `str.lower()` on one character. -/
def pyLowerC (c : Char) : Char :=
  if 'A' ≤ c && c ≤ 'Z' then Char.ofNat (c.toNat + 32) else c

/-- Python ASCII `str.lower()`. -/
def pyLowerS (s : String) : String :=
  String.mk (s.data.map pyLowerC)

/-- Index of the first occurrence of `pat` in `s` (Python `str.find`),
`none` when absent. -/
def findSubAux (pat : List Char) : List Char → Nat → Option Nat
  | s, i =>
    if List.isPrefixOf pat s then some i
    else
      match s with
      | [] => none
      | _ :: t => findSubAux pat t (i + 1)

def findSub (pat s : List Char) : Option Nat :=
  findSubAux pat s 0

/-- Python `pat in s` substring test. -/
def containsSub (s pat : List Char) : Bool :=
  (findSub pat s).isSome

/-- Python `str.replace` (all non-overlapping occurrences, left to right).
The pipeline never calls it with an empty pattern; we return the string
unchanged in that degenerate case. -/
def replaceL (pat rep : List Char) : List Char → List Char
  | [] => []
  | c :: rest =>
    if h : pat ≠ [] ∧ List.isPrefixOf pat (c :: rest) then
      rep ++ replaceL pat rep ((c :: rest).drop pat.length)
    else
      c :: replaceL pat rep rest
termination_by s => s.length
decreasing_by
  · simp only [List.length_drop, List.length_cons]
    have hp : 0 < pat.length := List.length_pos.mpr h.1
    omega
  · simp

/-- Value of a decimal digit string, Python `int` on a `\d+` match. -/
def digitsToNat (ds : List Char) : Nat :=
  ds.foldl (fun n c => n * 10 + (c.toNat - 48)) 0

/-- Python `str.split(sep)` for a non-empty separator (leftmost,
non-overlapping).  `acc` is the current field reversed; a positive `skip`
means we are still inside a matched separator. -/
def splitOnAux (sep : List Char) : List Char → List Char → Nat → List (List Char)
  | [], acc, _ => [acc.reverse]
  | c :: rest, acc, skip + 1 => splitOnAux sep rest acc skip
  | c :: rest, acc, 0 =>
    if List.isPrefixOf sep (c :: rest) then
      acc.reverse :: splitOnAux sep rest [] (sep.length - 1)
    else splitOnAux sep rest (c :: acc) 0

def splitOnL (sep s : List Char) : List (List Char) :=
  splitOnAux sep s [] 0

/-! ## MD5 (`hashlib.md5(...).hexdigest()`)

Words are `Nat` kept below `2 ^ 32` by explicit masking; the message is the
UTF-8 byte sequence of the content string. -/

def m32 : Nat := 4294967296

def rotl32 (x s : Nat) : Nat :=
  ((x <<< s) ||| (x >>> (32 - s))) % m32

def md5S : List Nat :=
  [7, 12, 17, 22, 7, 12, 17, 22, 7, 12, 17, 22, 7, 12, 17, 22,
   5, 9, 14, 20, 5, 9, 14, 20, 5, 9, 14, 20, 5, 9, 14, 20,
   4, 11, 16, 23, 4, 11, 16, 23, 4, 11, 16, 23, 4, 11, 16, 23,
   6, 10, 15, 21, 6, 10, 15, 21, 6, 10, 15, 21, 6, 10, 15, 21]

def md5K : List Nat :=
  [0xd76aa478, 0xe8c7b756, 0x242070db, 0xc1bdceee,
   0xf57c0faf, 0x4787c62a, 0xa8304613, 0xfd469501,
   0x698098d8, 0x8b44f7af, 0xffff5bb1, 0x895cd7be,
   0x6b901122, 0xfd987193, 0xa679438e, 0x49b40821,
   0xf61e2562, 0xc040b340, 0x265e5a51, 0xe9b6c7aa,
   0xd62f105d, 0x02441453, 0xd8a1e681, 0xe7d3fbc8,
   0x21e1cde6, 0xc33707d6, 0xf4d50d87, 0x455a14ed,
   0xa9e3e905, 0xfcefa3f8, 0x676f02d9, 0x8d2a4c8a,
   0xfffa3942, 0x8771f681, 0x6d9d6122, 0xfde5380c,
   0xa4beea44, 0x4bdecfa9, 0xf6bb4b60, 0xbebfbc70,
   0x289b7ec6, 0xeaa127fa, 0xd4ef3085, 0x04881d05,
   0xd9d4d039, 0xe6db99e5, 0x1fa27cf8, 0xc4ac5665,
   0xf4292244, 0x432aff97, 0xab9423a7, 0xfc93a039,
   0x655b59c3, 0x8f0ccc92, 0xffeff47d, 0x85845dd1,
   0x6fa87e4f, 0xfe2ce6e0, 0xa3014314, 0x4e0811a1,
   0xf7537e82, 0xbd3af235, 0x2ad7d2bb, 0xeb86d391]

/-- One MD5 round step on the state `(a, b, c, d)` with message words `mw`. -/
def md5Step (mw : List Nat) (st : Nat × Nat × Nat × Nat) (i : Nat) :
    Nat × Nat × Nat × Nat :=
  let (a, b, c, d) := st
  let notB := b ^^^ (m32 - 1)
  let notD := d ^^^ (m32 - 1)
  let (f, g) :=
    if i < 16 then ((b &&& c) ||| (notB &&& d), i)
    else if i < 32 then ((d &&& b) ||| (notD &&& c), (5 * i + 1) % 16)
    else if i < 48 then (b ^^^ c ^^^ d, (3 * i + 5) % 16)
    else (c ^^^ (b ||| notD), (7 * i) % 16)
  let f' := (f + a + md5K.getD i 0 + mw.getD g 0) % m32
  (d, (b + rotl32 f' (md5S.getD i 0)) % m32, b, c)

/-- Little-endian 32-bit words from 4-byte groups of a chunk. -/
def md5Words : List Nat → List Nat
  | b0 :: b1 :: b2 :: b3 :: rest =>
      (b0 + b1 * 256 + b2 * 65536 + b3 * 16777216) :: md5Words rest
  | _ => []

/-- Process one 64-byte chunk. -/
def md5Chunk (st : Nat × Nat × Nat × Nat) (chunk : List Nat) :
    Nat × Nat × Nat × Nat :=
  let (a0, b0, c0, d0) := st
  let mw := md5Words chunk
  let (a, b, c, d) := (List.range 64).foldl (md5Step mw) (a0, b0, c0, d0)
  ((a0 + a) % m32, (b0 + b) % m32, (c0 + c) % m32, (d0 + d) % m32)

/-- Chunked compression: consume the padded byte stream, flushing a chunk
whenever the buffer reaches 64 bytes (the padded stream's length is a
multiple of 64, so the final buffer is empty). -/
def md5Run (st : Nat × Nat × Nat × Nat) (buf : List Nat) :
    List Nat → Nat × Nat × Nat × Nat
  | [] => if buf.isEmpty then st else md5Chunk st buf
  | b :: rest =>
    let buf' := buf ++ [b]
    if buf'.length = 64 then md5Run (md5Chunk st buf') [] rest
    else md5Run st buf' rest

/-- MD5 padding: `0x80`, zeros to 56 mod 64, then the bit length as 8
little-endian bytes. -/
def md5Pad (msg : List Nat) : List Nat :=
  let len := msg.length
  let padLen := (55 + 64 - len % 64) % 64 + 1
  let bitLen := (8 * len) % (2 ^ 64)
  msg ++ (128 :: List.replicate (padLen - 1) 0) ++
    (List.range 8).map (fun i => (bitLen >>> (8 * i)) &&& 255)

/-- Little-endian byte rendering of one 32-bit word. -/
def wordLE (w : Nat) : List Nat :=
  [w &&& 255, (w >>> 8) &&& 255, (w >>> 16) &&& 255, (w >>> 24) &&& 255]

def md5Digest (msg : List Nat) : List Nat :=
  let (a, b, c, d) :=
    md5Run (0x67452301, 0xefcdab89, 0x98badcfe, 0x10325476) [] (md5Pad msg)
  wordLE a ++ wordLE b ++ wordLE c ++ wordLE d

def hexChar (n : Nat) : Char :=
  "0123456789abcdef".data.getD n '0'

def toHex (bs : List Nat) : String :=
  String.mk (bs.foldr (fun b acc => hexChar (b / 16 % 16) :: hexChar (b % 16) :: acc) [])

/-- UTF-8 encoding of one character (Python `str.encode('utf-8')`). -/
def utf8EncodeChar (c : Char) : List Nat :=
  let n := c.toNat
  if n < 0x80 then [n]
  else if n < 0x800 then
    [0xC0 ||| (n >>> 6), 0x80 ||| (n &&& 0x3F)]
  else if n < 0x10000 then
    [0xE0 ||| (n >>> 12), 0x80 ||| ((n >>> 6) &&& 0x3F), 0x80 ||| (n &&& 0x3F)]
  else
    [0xF0 ||| (n >>> 18), 0x80 ||| ((n >>> 12) &&& 0x3F),
     0x80 ||| ((n >>> 6) &&& 0x3F), 0x80 ||| (n &&& 0x3F)]

def utf8Bytes (s : String) : List Nat :=
  s.data.foldr (fun c acc => utf8EncodeChar c ++ acc) []

/-- `hashlib.md5(content.encode('utf-8')).hexdigest()`. -/
def md5Hex (s : String) : String :=
  toHex (md5Digest (utf8Bytes s))

/-! ## Data model (`M3UItem` and its variants, `task.py` lines 25-52)

The parser emits flat dicts; the classifier promotes them to the typed
variants.  Inheritance is flattened into plain structures. -/

structure RawItem where
  title : String
  url : String
  tvg_id : String
  tvg_name : String
  tvg_logo : String
  group_title : String
deriving Repr, DecidableEq

structure SeriesItem where
  title : String
  url : String
  group_title : String
  tvg_id : String
  tvg_name : String
  tvg_logo : String
  season : Option Nat
  episode : Option Nat
  series_name : Option String
deriving Repr, DecidableEq

structure MovieItem where
  title : String
  url : String
  group_title : String
  tvg_id : String
  tvg_name : String
  tvg_logo : String
  year : Option String
deriving Repr, DecidableEq

structure LiveTVItem where
  title : String
  url : String
  group_title : String
  tvg_id : String
  tvg_name : String
  tvg_logo : String
deriving Repr, DecidableEq

/-! ## Playlist parser (`parse_m3u_file`, lines 66-117)

File reading and the UTF-8 / latin-1 decoding fallback are outside the model:
the function takes the decoded text.  Regex helpers are specialised to the
patterns the source uses. -/

/-- `extract_attribute` (lines 114-117): first `attr_name="..."` occurrence,
empty string when absent. -/
def extract_attribute (text : String) (attr_name : String) : String :=
  match findSub (attr_name.data ++ ['=', '"']) text.data with
  | none => ""
  | some i =>
    let rest := text.data.drop (i + attr_name.length + 2)
    String.mk (rest.takeWhile (fun c => c ≠ '"'))

/-- Title extraction (lines 99-100): `re.search(r',\s*([^,]+)$', info_line)`.
Any match must start at the last comma; the greedy `\s*` then yields the
after-comma text with its leading whitespace dropped, backing off so that
`[^,]+` keeps at least one character.  No match (no comma, or nothing after
the last comma) falls back to the whole line. -/
def extractTitle (info_line : String) : String :=
  let cs := info_line.data
  match findSub [','] cs.reverse with
  | none => info_line
  | some ridx =>
    let after := cs.drop (cs.length - ridx)
    if after.isEmpty then info_line
    else
      let ws := (after.takeWhile pyIsSpace).length
      String.mk (after.drop (min ws (after.length - 1)))

/-- Marker stripping (lines 77-79): if the stripped text starts with
`#EXTM3U`, drop everything up to and including the first `#EXTM3U` of the
raw text. -/
def stripMarker (content : String) : String :=
  if List.isPrefixOf "#EXTM3U".data (pyStripL content.data) then
    match findSub "#EXTM3U".data content.data with
    | some i => String.mk (content.data.drop (i + 7))
    | none => content
  else content

/-- The delimiter-introduced segments: `content.split('#EXTINF:')[1:]` on the
marker-stripped text (line 82). -/
def extinfSegments (content : String) : List String :=
  ((splitOnL "#EXTINF:".data (stripMarker content).data).map String.mk).tail

/-- One loop body of lines 84-109: `none` when the stripped segment has no
newline (`len(lines) < 2`). -/
def parseSegment (seg : String) : Option RawItem :=
  let s := pyStripL seg.data
  match findSub ['\n'] s with
  | none => none
  | some i =>
    let info_line := String.mk (s.take i)
    let url := String.mk (pyStripL (s.drop (i + 1)))
    some
      { title := extractTitle info_line
        url := url
        tvg_id := extract_attribute info_line "tvg-id"
        tvg_name := extract_attribute info_line "tvg-name"
        tvg_logo := extract_attribute info_line "tvg-logo"
        group_title := extract_attribute info_line "group-title" }

/-- `parse_m3u_file`, on the decoded text. -/
def parse_m3u_file (content : String) : List RawItem :=
  (extinfSegments content).filterMap parseSegment

/-! ## Series/movie info extraction (`parse_series_info`, lines 219-244) -/

structure SeriesInfo where
  series_name : String
  season : Nat
  episode : Nat
deriving Repr, DecidableEq

/-- Tail matcher for pattern 1 `\s+S(\d+)\s+E(\d+)` with `re.IGNORECASE`;
the greedy `\s+`/`\d+` runs cannot backtrack productively because the
required follow character is never of the same class. -/
def tailMatch1 (l : List Char) : Option (Nat × Nat) :=
  let ws := l.takeWhile pyIsSpace
  let r1 := l.dropWhile pyIsSpace
  if ws.isEmpty then none
  else
    match r1 with
    | c :: r2 =>
      if c == 'S' || c == 's' then
        let d1 := r2.takeWhile Char.isDigit
        let r3 := r2.dropWhile Char.isDigit
        if d1.isEmpty then none
        else
          let ws2 := r3.takeWhile pyIsSpace
          let r4 := r3.dropWhile pyIsSpace
          if ws2.isEmpty then none
          else
            match r4 with
            | e :: r5 =>
              if e == 'E' || e == 'e' then
                let d2 := r5.takeWhile Char.isDigit
                if d2.isEmpty then none
                else some (digitsToNat d1, digitsToNat d2)
              else none
            | [] => none
      else none
    | [] => none

/-- Tail matcher for pattern 2 `\s+(\d+)x(\d+)` with `re.IGNORECASE`. -/
def tailMatch2 (l : List Char) : Option (Nat × Nat) :=
  let ws := l.takeWhile pyIsSpace
  let r1 := l.dropWhile pyIsSpace
  if ws.isEmpty then none
  else
    let d1 := r1.takeWhile Char.isDigit
    let r2 := r1.dropWhile Char.isDigit
    if d1.isEmpty then none
    else
      match r2 with
      | x :: r3 =>
        if x == 'x' || x == 'X' then
          let d2 := r3.takeWhile Char.isDigit
          if d2.isEmpty then none
          else some (digitsToNat d1, digitsToNat d2)
        else none
      | [] => none

/-- Lazy `(.*?)` expansion at a fixed start: try the empty capture first,
then grow it one (non-newline, `.` does not match `\n`) character at a
time. -/
def tryLazy (tm : List Char → Option (Nat × Nat)) :
    List Char → List Char → Option (List Char × Nat × Nat)
  | grp, rest =>
    match tm rest with
    | some (s, e) => some (grp, s, e)
    | none =>
      match rest with
      | [] => none
      | c :: r => if c == '\n' then none else tryLazy tm (grp ++ [c]) r

/-- `re.search`: leftmost start position wins. -/
def searchLazy (tm : List Char → Option (Nat × Nat)) :
    List Char → Option (List Char × Nat × Nat)
  | [] => tryLazy tm [] []
  | c :: rest =>
    match tryLazy tm [] (c :: rest) with
    | some r => some r
    | none => searchLazy tm rest

/-- `parse_series_info` (lines 219-236). -/
def parse_series_info (title : String) : Option SeriesInfo :=
  let r := match searchLazy tailMatch1 title.data with
           | some r => some r
           | none => searchLazy tailMatch2 title.data
  match r with
  | some (g, s, e) => some ⟨pyStripS (String.mk g), s, e⟩
  | none => none

/-- `extract_movie_year` (lines 239-244): a trailing `(YYYY)`. -/
def extract_movie_year (title : String) : Option String :=
  let cs := title.data
  if cs.length ≥ 6 then
    let tail6 := cs.drop (cs.length - 6)
    match tail6 with
    | ['(', d1, d2, d3, d4, ')'] =>
      if d1.isDigit && d2.isDigit && d3.isDigit && d4.isDigit then
        some (String.mk [d1, d2, d3, d4])
      else none
    | _ => none
  else none

/-- `sanitize_filename` (lines 247-254). -/
def sanitize_filename (name : String) : String :=
  let invalid : List Char := ['<', '>', ':', '"', '/', '\\', '|', '?', '*']
  let replaced := name.data.map (fun c => if invalid.contains c then '_' else c)
  String.mk (pyRStrip ['.', ' '] replaced)

/-- `calculate_content_hash` (lines 257-263): Python `if not content` is the
empty-string test here, yielding the sentinel. -/
def calculate_content_hash (content : String) : String :=
  if content.isEmpty then "empty_content_hash" else md5Hex content

/-! ## Classifier (`categorize_items`, lines 121-216)

The filter configuration (`web_ui.load_filters()`) and the three
`*_GROUPS` environment strings are run inputs, passed as parameters. -/

/-- `os.getenv(VAR, "").split(',')` (lines 129-131). -/
def groupFilters (env : String) : List String :=
  (splitOnL ",".data env.data).map String.mk

/-- The series branch of the loop (lines 151-169): `some` when the item is
promoted (then the loop `continue`s). -/
def seriesDecision (series_filters : List String) (series_groups_filters : List String)
    (all : Bool) (item : RawItem) : Option SeriesItem :=
  if !series_filters.isEmpty || all then
    match parse_series_info item.title with
    | some series_info =>
      if ((series_filters.map pyLowerS).contains (pyLowerS series_info.series_name) || all)
          && series_groups_filters.contains item.group_title then
        some
          { title := item.title
            url := item.url
            group_title := item.group_title
            tvg_id := item.tvg_id
            tvg_name := item.tvg_name
            tvg_logo := item.tvg_logo
            series_name := some series_info.series_name
            season := some series_info.season
            episode := some series_info.episode }
      else none
    | none => none
  else none

/-- The movies branch (lines 172-187).  `MovieItem` is constructed without a
`year` argument, so `year = none`. -/
def movieDecision (movies_filters : List String) (movies_groups_filters : List String)
    (all : Bool) (item : RawItem) : Option MovieItem :=
  if !movies_filters.isEmpty || all then
    let movie_title := item.title
    if ((movies_filters.map pyLowerS).contains (pyLowerS movie_title) || all)
        && movies_groups_filters.contains item.group_title then
      some
        { title := item.title
          url := item.url
          group_title := item.group_title
          tvg_id := item.tvg_id
          tvg_name := item.tvg_name
          tvg_logo := item.tvg_logo
          year := none }
    else none
  else none

/-- The live branch (lines 190-208). -/
def liveDecision (live_filters : List String) (live_groups_filters : List String)
    (all : Bool) (item : RawItem) : Option LiveTVItem :=
  if !live_filters.isEmpty || all then
    let live_title := item.title
    if ((live_filters.map pyLowerS).contains (pyLowerS live_title) || all)
        && live_groups_filters.contains item.group_title then
      some
        { title := item.title
          url := item.url
          group_title := item.group_title
          tvg_id := item.tvg_id
          tvg_name := item.tvg_name
          tvg_logo := item.tvg_logo }
    else none
  else none

structure Categorized where
  series : List SeriesItem
  movies : List MovieItem
  live : List LiveTVItem
deriving Repr, DecidableEq

/-- One loop iteration: the `continue` statements make the three branches
short-circuit in the fixed order series, movies, live. -/
def classifyStep (sf mf lf sgf mgf lgf : List String) (all : Bool)
    (acc : Categorized) (item : RawItem) : Categorized :=
  match seriesDecision sf sgf all item with
  | some s => { acc with series := acc.series ++ [s] }
  | none =>
    match movieDecision mf mgf all item with
    | some m => { acc with movies := acc.movies ++ [m] }
    | none =>
      match liveDecision lf lgf all item with
      | some l => { acc with live := acc.live ++ [l] }
      | none => acc

/-- `categorize_items`.  `sf`/`mf`/`lf` are the loaded filter name lists;
`sg`/`mg`/`lg` the raw `SERIES_GROUPS` / `MOVIES_GROUPS` / `LIVE_GROUPS`
environment strings, split on commas as in lines 129-131. -/
def categorize_items (sf mf lf : List String) (sg mg lg : String)
    (items : List RawItem) (all : Bool) : Categorized :=
  let sgf := groupFilters sg
  let mgf := groupFilters mg
  let lgf := groupFilters lg
  items.foldl (classifyStep sf mf lf sgf mgf lgf all) ⟨[], [], []⟩

/-! ## Filesystem and checksum-store model

Association lists from path to content / fingerprint, with dict-style
insertion (`checksums[k] = v`) and filesystem erase (`os.remove`).  A `fail`
list holds the paths whose `open(..., 'w')`/`write` raises `IOError`. -/

abbrev PathMap := List (String × String)

def lookupA : PathMap → String → Option String
  | [], _ => none
  | (k', v') :: t, k => if k' == k then some v' else lookupA t k

def insertA : PathMap → String → String → PathMap
  | [], k, v => [(k, v)]
  | (k', v') :: t, k, v =>
    if k' == k then (k, v) :: t else (k', v') :: insertA t k v

def eraseA (m : PathMap) (k : String) : PathMap :=
  m.filter (fun p => p.1 ≠ k)

/-- `os.path.exists`. -/
def existsA (m : PathMap) (k : String) : Bool :=
  (lookupA m k).isSome

/-- `check_file_content` (lines 304-331): the file exists and its text equals
the expected content. -/
def check_file_content (fs : PathMap) (p expected : String) : Bool :=
  lookupA fs p == some expected

def joinSlash : List String → String
  | [] => ""
  | [x] => x
  | x :: y :: t => x ++ "/" ++ joinSlash (y :: t)

/-- Segments `os.path.normpath` keeps. -/
def keepSeg (s : String) : Bool :=
  !s.isEmpty && s ≠ "."

/-- `os.path.normpath` on the forward-slash join of already-sanitized
segments: components are never `..` (sanitization strips trailing dots), so
normalization only drops empty and `.` components. -/
def normJoin (segs : List String) : String :=
  joinSlash (segs.filter keepSeg)

/-! ## Sync engine (`create_strm_files_for_*`, `create_live_m3u_file`) -/

/-- A `new_items_details` record (the notification dicts). -/
structure Detail where
  dtype : String
  name : String
  season : Option Nat := none
  episode : Option Nat := none
  display : String
deriving Repr, DecidableEq

/-- One output artifact: base-relative target path (also the checksum key,
`os.path.relpath(strm_path, base_path)`), the exact content to write, and
the notification record used when it is counted new. -/
structure Artifact where
  rel : String
  content : String
  detail : Detail
deriving Repr, DecidableEq

structure SyncState where
  fs : PathMap
  cs : PathMap
  updated : Nat
  unchanged : Nat
  newFiles : Nat
  newItems : List Detail
deriving Repr, DecidableEq

/-- The update decision of lines 388-399 (and 482-493): first the on-disk
check, then the checksum store; returns `(needs_update, is_new_file)`. -/
def updateFlags (fs cs : PathMap) (a : Artifact) : Bool × Bool :=
  let content_hash := calculate_content_hash a.content
  let needs_update := !check_file_content fs a.rel a.content
  let is_new_file := !existsA fs a.rel
  match lookupA cs a.rel with
  | none => (true, true)
  | some stored =>
    if stored ≠ content_hash then (true, is_new_file)
    else (needs_update, is_new_file)

/-- Lines 401-424 / 495-517: perform (or skip) the write for one artifact.
A raising write (`a.rel ∈ fail`) is caught before any counter or checksum
mutation. -/
def processArtifact (fail : List String) (a : Artifact) (s : SyncState) : SyncState :=
  let content_hash := calculate_content_hash a.content
  let (needs_update, is_new_file) := updateFlags s.fs s.cs a
  if needs_update then
    if fail.contains a.rel then s
    else
      { fs := insertA s.fs a.rel a.content
        cs := insertA s.cs a.rel content_hash
        updated := s.updated + 1
        unchanged := s.unchanged
        newFiles := s.newFiles + (if is_new_file then 1 else 0)
        newItems := s.newItems ++ (if is_new_file then [a.detail] else []) }
  else { s with unchanged := s.unchanged + 1 }

def processAll (fail : List String) (arts : List Artifact) (s : SyncState) : SyncState :=
  arts.foldl (fun st a => processArtifact fail a st) s

/-- Python `%02d`. -/
def pad2 (n : Nat) : String :=
  if n < 10 then "0" ++ toString n else toString n

/-- Grouping of lines 351-358: dict insertion order, keyed by series name,
skipping items with a falsy (`None` or empty) `series_name`. -/
def groupSeries (items : List SeriesItem) : List (String × List SeriesItem) :=
  items.foldl
    (fun acc item =>
      match item.series_name with
      | none => acc
      | some n =>
        if n.isEmpty then acc
        else
          if (acc.map Prod.fst).contains n then
            acc.map (fun p => if p.1 == n then (p.1, p.2 ++ [item]) else p)
          else acc ++ [(n, [item])])
    []

/-- Target path and content for one episode (lines 370-386), skipping
episodes with a missing season or episode number. -/
def seriesArtifact (series_name : String) (ep : SeriesItem) : Option Artifact :=
  match ep.season, ep.episode with
  | some season, some episode =>
    let safe_series_name := sanitize_filename series_name
    let episode_filename :=
      safe_series_name ++ " S" ++ pad2 season ++ "E" ++ pad2 episode ++ ".strm"
    some
      { rel := normJoin ["series", safe_series_name, "Season " ++ pad2 season,
                         episode_filename]
        content := ep.url
        detail :=
          { dtype := "series"
            name := series_name
            season := some season
            episode := some episode
            display := series_name ++ " S" ++ pad2 season ++ "E" ++ pad2 episode } }
  | _, _ => none

def seriesArtifacts (items : List SeriesItem) : List Artifact :=
  (groupSeries items).flatMap
    (fun g => g.2.filterMap (seriesArtifact g.1))

/-- `create_strm_files_for_series` (lines 334-427); returns the final
filesystem/checksum state and `(updated_count, new_files_count,
new_items_details)` in the counters. -/
def create_strm_files_for_series (series_items : List SeriesItem)
    (fs cs : PathMap) (fail : List String) : SyncState :=
  processAll fail (seriesArtifacts series_items) ⟨fs, cs, 0, 0, 0, []⟩

/-- Folder naming of lines 452-468: Python `year` truthiness plus the
`(year)` substring test. -/
def movieFolderName (m : MovieItem) : String :=
  match m.year with
  | none => pyStripS m.title
  | some y =>
    if y.isEmpty then pyStripS m.title
    else
      let tag := "(" ++ y ++ ")"
      let movie_name :=
        if containsSub m.title.data tag.data then
          pyStripS (String.mk (replaceL tag.data [] m.title.data))
        else pyStripS m.title
      movie_name ++ " (" ++ y ++ ")"

/-- `display_name = folder_name if year else movie_name` (line 507); with a
falsy year both equal the stripped title. -/
def movieDisplayName (m : MovieItem) : String :=
  movieFolderName m

def movieArtifact (m : MovieItem) : Artifact :=
  let safe_folder_name := sanitize_filename (movieFolderName m)
  { rel := normJoin ["movies", safe_folder_name, safe_folder_name ++ ".strm"]
    content := m.url
    detail :=
      { dtype := "movie"
        name := movieDisplayName m
        display := movieDisplayName m } }

/-- `create_strm_files_for_movies` (lines 430-520). -/
def create_strm_files_for_movies (movie_items : List MovieItem)
    (fs cs : PathMap) (fail : List String) : SyncState :=
  processAll fail (movie_items.map movieArtifact) ⟨fs, cs, 0, 0, 0, []⟩

/-- The aggregate manifest content (lines 545-550). -/
def liveM3uContent (live_items : List LiveTVItem) : String :=
  live_items.foldl
    (fun acc item =>
      acc ++ "#EXTINF:-1 tvg-id=\"" ++ item.tvg_id ++ "\" tvg-name=\"" ++
        item.tvg_name ++ "\" tvg-logo=\"" ++ item.tvg_logo ++
        "\" group-title=\"" ++ item.group_title ++ "\"," ++ item.title ++ "\n" ++
        item.url ++ "\n")
    "#EXTM3U\n"

def livePath : String := "live.m3u"

structure LiveResult where
  fs : PathMap
  cs : PathMap
  updated : Nat
  newFiles : Nat
  newItems : List Detail
deriving Repr, DecidableEq

/-- The single aggregate artifact of a non-empty live run
(`os.path.relpath(live_m3u_path, base_path) = 'live.m3u'`). -/
def liveArtifact (live_items : List LiveTVItem) : Artifact :=
  { rel := livePath
    content := liveM3uContent live_items
    detail := { dtype := "live", name := "live", display := "live" } }

/-- `create_live_m3u_file` (lines 523-587).  An empty collection removes a
stale manifest (the `os.remove` may itself raise, modelled by `fail`);
otherwise the single aggregate artifact goes through the same
exists/content/checksum decision, with `is_new_file` forced when the
checksum entry is missing. -/
def create_live_m3u_file (live_items : List LiveTVItem)
    (fs cs : PathMap) (fail : List String) : LiveResult :=
  if live_items.isEmpty then
    let fs' :=
      if existsA fs livePath then
        if fail.contains livePath then fs else eraseA fs livePath
      else fs
    ⟨fs', cs, 0, 0, []⟩
  else
    let a := liveArtifact live_items
    let content_hash := calculate_content_hash a.content
    let (needs_update, is_new_file) := updateFlags fs cs a
    if needs_update then
      if fail.contains livePath then ⟨fs, cs, 0, 0, []⟩
      else
        ⟨insertA fs livePath a.content, insertA cs livePath content_hash,
         1, if is_new_file then 1 else 0, []⟩
    else ⟨fs, cs, 0, 0, []⟩

/-- The sync stage of one `run_task` (lines 819-821): series, then movies,
then live, threading the filesystem and the shared checksum dict through all
three. -/
structure StageResult where
  fs : PathMap
  cs : PathMap
  series_updated : Nat
  series_new : Nat
  movies_updated : Nat
  movies_new : Nat
  live_updated : Nat
  live_new : Nat
  new_series_details : List Detail
  new_movies_details : List Detail
deriving Repr, DecidableEq

def syncStage (series_items : List SeriesItem) (movie_items : List MovieItem)
    (live_items : List LiveTVItem) (fs cs : PathMap) (fail : List String) :
    StageResult :=
  let r1 := create_strm_files_for_series series_items fs cs fail
  let r2 := create_strm_files_for_movies movie_items r1.fs r1.cs fail
  let r3 := create_live_m3u_file live_items r2.fs r2.cs fail
  { fs := r3.fs
    cs := r3.cs
    series_updated := r1.updated
    series_new := r1.newFiles
    movies_updated := r2.updated
    movies_new := r2.newFiles
    live_updated := r3.updated
    live_new := r3.newFiles
    new_series_details := r1.newItems
    new_movies_details := r2.newItems }

def StageResult.totalUpdated (r : StageResult) : Nat :=
  r.series_updated + r.movies_updated + r.live_updated

/-! ## Map lemmas -/

theorem lookupA_insertA (m : PathMap) (k v k') :
    lookupA (insertA m k v) k' = if k' = k then some v else lookupA m k' := by
  induction m with
  | nil =>
    simp only [insertA, lookupA, beq_iff_eq]
    by_cases h : k = k' <;> by_cases h2 : k' = k <;> simp_all
  | cons p t ih =>
    obtain ⟨pk, pv⟩ := p
    by_cases hpk : pk = k
    · subst hpk
      simp only [insertA, beq_self_eq_true, if_pos, lookupA]
      by_cases h : pk = k'
      · subst h; simp
      · have h2 : ¬ k' = pk := fun hh => h hh.symm
        simp [beq_iff_eq, h, h2]
    · simp only [insertA, beq_iff_eq, if_neg hpk, lookupA, ih]
      by_cases h : pk = k'
      · subst h
        simp [hpk]
      · simp [beq_iff_eq, h]

theorem lookupA_eraseA (m : PathMap) (k k') :
    lookupA (eraseA m k) k' = if k' = k then none else lookupA m k' := by
  induction m with
  | nil =>
    simp only [eraseA, List.filter_nil, lookupA]
    by_cases h2 : k' = k <;> simp_all
  | cons p t ih =>
    obtain ⟨pk, pv⟩ := p
    by_cases hpk : pk = k <;> by_cases h2 : k' = k <;> by_cases h3 : pk = k' <;>
      simp_all [eraseA, List.filter_cons, lookupA]

theorem eraseA_of_lookup_none (m : PathMap) (k) (h : lookupA m k = none) :
    eraseA m k = m := by
  induction m with
  | nil => rfl
  | cons p t ih =>
    obtain ⟨pk, pv⟩ := p
    simp only [lookupA, beq_iff_eq] at h
    by_cases hpk : pk = k
    · simp [hpk] at h
    · simp only [if_neg hpk] at h
      have ht := ih h
      simp only [eraseA, List.filter_cons] at ht ⊢
      rw [if_pos (by simpa using hpk), ht]

/-! ## Per-artifact lemmas -/

/-- The post-state an artifact's entry should be in after a successful run:
the file holds the intended content and the store holds its fingerprint. -/
def syncedAt (fs cs : PathMap) (a : Artifact) : Prop :=
  lookupA fs a.rel = some a.content ∧
  lookupA cs a.rel = some (calculate_content_hash a.content)

instance (fs cs : PathMap) (a : Artifact) : Decidable (syncedAt fs cs a) := by
  unfold syncedAt; infer_instance

theorem updateFlags_fst_false_iff (fs cs : PathMap) (a : Artifact) :
    (updateFlags fs cs a).1 = false ↔ syncedAt fs cs a := by
  unfold updateFlags syncedAt check_file_content
  cases h : lookupA cs a.rel with
  | none => simp [h]
  | some stored =>
    by_cases hs : stored = calculate_content_hash a.content
    · subst hs
      simp [h, beq_iff_eq]
    · simp [h, hs]

/-- Unfolded characterization of `processArtifact` in terms of the flag
projections. -/
theorem processArtifact_eq (fail : List String) (a : Artifact) (s : SyncState) :
    processArtifact fail a s =
      if (updateFlags s.fs s.cs a).1 then
        if fail.contains a.rel then s
        else
          { fs := insertA s.fs a.rel a.content
            cs := insertA s.cs a.rel (calculate_content_hash a.content)
            updated := s.updated + 1
            unchanged := s.unchanged
            newFiles := s.newFiles + (if (updateFlags s.fs s.cs a).2 then 1 else 0)
            newItems := s.newItems ++
              (if (updateFlags s.fs s.cs a).2 then [a.detail] else []) }
      else { s with unchanged := s.unchanged + 1 } := by
  unfold processArtifact
  rcases huf : updateFlags s.fs s.cs a with ⟨nu, nf⟩
  cases nu <;> simp

theorem processArtifact_entry (a : Artifact) (s : SyncState) :
    syncedAt (processArtifact [] a s).fs (processArtifact [] a s).cs a := by
  rw [processArtifact_eq]
  cases hf : (updateFlags s.fs s.cs a).1 with
  | false =>
    have h := (updateFlags_fst_false_iff s.fs s.cs a).mp hf
    simpa [syncedAt] using h
  | true =>
    simp only [if_pos rfl, List.contains, List.elem]
    constructor <;> simp [lookupA_insertA]

theorem processArtifact_frame (fail : List String) (a b : Artifact) (s : SyncState)
    (hcompat : b.rel = a.rel → b.content = a.content)
    (h : syncedAt s.fs s.cs a) :
    syncedAt (processArtifact fail b s).fs (processArtifact fail b s).cs a := by
  rw [processArtifact_eq]
  cases hf : (updateFlags s.fs s.cs b).1 with
  | false => simpa [syncedAt] using h
  | true =>
    cases hfail : fail.contains b.rel with
    | true => simpa [syncedAt] using h
    | false =>
      by_cases hrel : b.rel = a.rel
      · have hc := hcompat hrel
        constructor <;> simp [lookupA_insertA, hrel.symm, hc]
      · have hrel' : ¬ a.rel = b.rel := fun h' => hrel h'.symm
        constructor <;> simp [lookupA_insertA, hrel', h.1, h.2]

theorem processArtifact_of_synced (fail : List String) (a : Artifact) (s : SyncState)
    (h : syncedAt s.fs s.cs a) :
    processArtifact fail a s = { s with unchanged := s.unchanged + 1 } := by
  have hf : (updateFlags s.fs s.cs a).1 = false :=
    (updateFlags_fst_false_iff s.fs s.cs a).mpr h
  rw [processArtifact_eq, hf]
  simp

/-! ## Run-level lemmas -/

/-- No two artifacts of a run target the same path with different contents
(the amendment hypothesis for idempotence). -/
def compatible (arts : List Artifact) : Prop :=
  ∀ a ∈ arts, ∀ b ∈ arts, a.rel = b.rel → a.content = b.content

instance (arts : List Artifact) : Decidable (compatible arts) := by
  unfold compatible; infer_instance

theorem processAll_cons (fail : List String) (a : Artifact) (arts : List Artifact)
    (s : SyncState) :
    processAll fail (a :: arts) s = processAll fail arts (processArtifact fail a s) := by
  rfl

theorem processAll_frame (fail : List String) (arts : List Artifact) (a : Artifact)
    (s : SyncState)
    (hcompat : ∀ b ∈ arts, b.rel = a.rel → b.content = a.content)
    (h : syncedAt s.fs s.cs a) :
    syncedAt (processAll fail arts s).fs (processAll fail arts s).cs a := by
  induction arts generalizing s with
  | nil => exact h
  | cons b rest ih =>
    rw [processAll_cons]
    exact ih (processArtifact fail b s)
      (fun c hc => hcompat c (List.mem_cons_of_mem b hc))
      (processArtifact_frame fail a b s (hcompat b (List.mem_cons_self b rest)) h)

theorem processAll_establishes (arts : List Artifact) (s : SyncState)
    (hc : compatible arts) :
    ∀ a ∈ arts, syncedAt (processAll [] arts s).fs (processAll [] arts s).cs a := by
  induction arts generalizing s with
  | nil => intro a ha; cases ha
  | cons b rest ih =>
    intro a ha
    rw [processAll_cons]
    rcases List.mem_cons.mp ha with rfl | hmem
    · exact processAll_frame [] rest a (processArtifact [] a s)
        (fun c hc' hrel =>
          (hc c (List.mem_cons_of_mem a hc') a (List.mem_cons_self a rest) hrel).symm ▸
            (hc c (List.mem_cons_of_mem a hc') a (List.mem_cons_self a rest) hrel))
        (processArtifact_entry a s)
    · exact ih (processArtifact [] b s)
        (fun x hx y hy hrel =>
          hc x (List.mem_cons_of_mem b hx) y (List.mem_cons_of_mem b hy) hrel)
        a hmem

theorem processAll_of_synced (fail : List String) (arts : List Artifact)
    (s : SyncState) (h : ∀ a ∈ arts, syncedAt s.fs s.cs a) :
    processAll fail arts s =
      { s with unchanged := s.unchanged + arts.length } := by
  induction arts generalizing s with
  | nil => simp [processAll]
  | cons a rest ih =>
    rw [processAll_cons,
      processArtifact_of_synced fail a s (h a (List.mem_cons_self a rest))]
    rw [ih { s with unchanged := s.unchanged + 1 }
      (fun b hb => h b (List.mem_cons_of_mem a hb))]
    simp only [List.length_cons]
    congr 1
    omega

/-! ## Path-shape lemmas: series and movie artifacts never target the
aggregate live manifest path. -/

theorem joinSlash_cons (x : String) (l : List String) (h : l ≠ []) :
    joinSlash (x :: l) = x ++ "/" ++ joinSlash l := by
  cases l with
  | nil => cases h rfl
  | cons y t => rfl

theorem append_strm_ne_empty (x : String) : (x ++ ".strm") ≠ "" := by
  intro h
  have h2 := congrArg String.data h
  rw [String.data_append] at h2
  have h3 := congrArg List.length h2
  rw [List.length_append] at h3
  have h5 : (".strm" : String).data.length = 5 := rfl
  rw [h5] at h3
  simp at h3

theorem append_strm_ne_dot (x : String) : (x ++ ".strm") ≠ "." := by
  intro h
  have h2 := congrArg String.data h
  rw [String.data_append] at h2
  have h3 := congrArg List.length h2
  rw [List.length_append] at h3
  have h5 : (".strm" : String).data.length = 5 := rfl
  have h1 : ("." : String).data.length = 1 := rfl
  rw [h5, h1] at h3
  omega

theorem keepSeg_strm (x : String) : keepSeg (x ++ ".strm") = true := by
  unfold keepSeg
  have h1 : (x ++ ".strm").isEmpty = false := by
    cases hi : (x ++ ".strm").isEmpty
    · rfl
    · exact absurd ((String.isEmpty_iff _).mp hi) (append_strm_ne_empty x)
  rw [h1]
  simp [append_strm_ne_dot x]

/-- A normalized join under a fixed category root keeps that root as the
first path component provided some later segment survives filtering. -/
theorem normJoin_root (root : String) (segs : List String) (x : String)
    (hroot : keepSeg root = true) (hx : x ∈ segs) (hkx : keepSeg x = true) :
    normJoin (root :: segs) = root ++ "/" ++ joinSlash (segs.filter keepSeg) := by
  unfold normJoin
  rw [List.filter_cons, if_pos hroot]
  exact joinSlash_cons root _
    (List.ne_nil_of_mem (List.mem_filter.mpr ⟨hx, hkx⟩))

theorem root_append_ne_live (root rest : String) (c : Char)
    (hc : root.data.head? = some c) (hne : c ≠ 'l') :
    root ++ "/" ++ rest ≠ "live.m3u" := by
  intro h
  have h2 := congrArg String.data h
  rw [String.data_append, String.data_append] at h2
  have h3 := congrArg List.head? h2
  rw [List.head?_append, List.head?_append, hc] at h3
  have hlive : ("live.m3u" : String).data.head? = some 'l' := rfl
  rw [hlive] at h3
  simp at h3
  exact hne h3

theorem seriesArtifact_rel_ne_live (name : String) (ep : SeriesItem) (a : Artifact)
    (h : seriesArtifact name ep = some a) : a.rel ≠ livePath := by
  unfold seriesArtifact at h
  cases hs : ep.season with
  | none => rw [hs] at h; cases h
  | some season =>
    cases he : ep.episode with
    | none => rw [hs, he] at h; cases h
    | some episode =>
      rw [hs, he] at h
      have hrel : a.rel =
          normJoin ["series", sanitize_filename name,
            "Season " ++ pad2 season,
            sanitize_filename name ++ " S" ++ pad2 season ++ "E" ++
              pad2 episode ++ ".strm"] := by
        cases h; rfl
      have hshape :
          a.rel = "series" ++ "/" ++
            joinSlash (List.filter keepSeg
              [sanitize_filename name, "Season " ++ pad2 season,
               sanitize_filename name ++ " S" ++ pad2 season ++ "E" ++
                 pad2 episode ++ ".strm"]) := by
        rw [hrel]
        refine normJoin_root "series" _
          (((sanitize_filename name ++ " S" ++ pad2 season ++ "E" ++
              pad2 episode) ++ ".strm")) (by decide) ?_ (keepSeg_strm _)
        simp [String.append_assoc]
      rw [hshape]
      exact root_append_ne_live "series" _ 's' rfl (by decide)

theorem mem_seriesArtifacts (items : List SeriesItem) (a : Artifact)
    (h : a ∈ seriesArtifacts items) : ∃ name ep, seriesArtifact name ep = some a := by
  unfold seriesArtifacts at h
  rcases List.mem_flatMap.mp h with ⟨g, _, ha⟩
  rcases List.mem_filterMap.mp ha with ⟨ep, _, heq⟩
  exact ⟨g.1, ep, heq⟩

theorem movieArtifact_rel_ne_live (m : MovieItem) :
    (movieArtifact m).rel ≠ livePath := by
  have hrel : (movieArtifact m).rel =
      normJoin ["movies", sanitize_filename (movieFolderName m),
        sanitize_filename (movieFolderName m) ++ ".strm"] := rfl
  have hshape : (movieArtifact m).rel =
      "movies" ++ "/" ++
        joinSlash (List.filter keepSeg
          [sanitize_filename (movieFolderName m),
           sanitize_filename (movieFolderName m) ++ ".strm"]) := by
    rw [hrel]
    exact normJoin_root "movies" _
      (sanitize_filename (movieFolderName m) ++ ".strm") (by decide)
      (by simp) (keepSeg_strm _)
  rw [hshape]
  exact root_append_ne_live "movies" _ 'm' rfl (by decide)

/-! ## Live-manifest lemmas -/

theorem create_live_frame (l : List LiveTVItem) (fs cs : PathMap)
    (fail : List String) (a : Artifact) (hne : a.rel ≠ livePath)
    (h : syncedAt fs cs a) :
    syncedAt (create_live_m3u_file l fs cs fail).fs
      (create_live_m3u_file l fs cs fail).cs a := by
  obtain ⟨h1, h2⟩ := h
  unfold create_live_m3u_file
  cases hl : l.isEmpty with
  | true =>
    by_cases hmem : livePath ∈ fail
    · by_cases hex : existsA fs livePath = true <;>
        simp [hl, hmem, hex, h1, h2, syncedAt]
    · by_cases hex : existsA fs livePath = true <;>
        simp [hl, hmem, hex, h1, h2, syncedAt, lookupA_eraseA, hne]
  | false =>
    rcases huf : updateFlags fs cs (liveArtifact l) with ⟨nu, nf⟩
    cases nu with
    | false => simp [hl, huf, h1, h2, syncedAt]
    | true =>
      by_cases hmem : livePath ∈ fail <;>
        simp [hl, huf, hmem, h1, h2, syncedAt, lookupA_insertA, hne]

theorem create_live_establishes (l : List LiveTVItem) (fs cs : PathMap)
    (fail : List String) (hl : l.isEmpty = false)
    (hmem : livePath ∉ fail) :
    syncedAt (create_live_m3u_file l fs cs fail).fs
      (create_live_m3u_file l fs cs fail).cs (liveArtifact l) := by
  unfold create_live_m3u_file
  rcases huf : updateFlags fs cs (liveArtifact l) with ⟨nu, nf⟩
  cases nu with
  | false =>
    have h := (updateFlags_fst_false_iff fs cs (liveArtifact l)).mp (by rw [huf])
    simpa [hl, huf, syncedAt] using h
  | true =>
    have hca : (liveArtifact l).content = liveM3uContent l := rfl
    have hcr : (liveArtifact l).rel = livePath := rfl
    simp [hl, huf, hmem, syncedAt, lookupA_insertA, hca, hcr]

theorem create_live_of_synced (l : List LiveTVItem) (fs cs : PathMap)
    (fail : List String) (hl : l.isEmpty = false)
    (h : syncedAt fs cs (liveArtifact l)) :
    create_live_m3u_file l fs cs fail = ⟨fs, cs, 0, 0, []⟩ := by
  have hf : (updateFlags fs cs (liveArtifact l)).1 = false :=
    (updateFlags_fst_false_iff fs cs (liveArtifact l)).mpr h
  unfold create_live_m3u_file
  rcases huf : updateFlags fs cs (liveArtifact l) with ⟨nu, nf⟩
  rw [huf] at hf
  cases hf
  simp [hl, huf]

theorem create_live_empty_erases (fs cs : PathMap) (fail : List String)
    (hmem : livePath ∉ fail) :
    create_live_m3u_file [] fs cs fail = ⟨eraseA fs livePath, cs, 0, 0, []⟩ := by
  unfold create_live_m3u_file
  by_cases hex : existsA fs livePath = true
  · simp [hex, hmem]
  · simp only [Bool.not_eq_true] at hex
    have hnone : lookupA fs livePath = none := by
      unfold existsA at hex
      cases hlk : lookupA fs livePath with
      | none => rfl
      | some v => rw [hlk] at hex; cases hex
    rw [eraseA_of_lookup_none fs livePath hnone]
    simp [hex]

theorem seriesArtifacts_rel_ne_live (items : List SeriesItem) (a : Artifact)
    (h : a ∈ seriesArtifacts items) : a.rel ≠ livePath := by
  rcases mem_seriesArtifacts items a h with ⟨name, ep, heq⟩
  exact seriesArtifact_rel_ne_live name ep a heq

theorem movieArtifacts_rel_ne_live (mi : List MovieItem) (a : Artifact)
    (h : a ∈ mi.map movieArtifact) : a.rel ≠ livePath := by
  rcases List.mem_map.mp h with ⟨x, _, rfl⟩
  exact movieArtifact_rel_ne_live x

/-- The full two-run pipeline: with compatible artifact lists that avoid the
live-manifest path, the second run of series, movies and live processing
performs no write and leaves the filesystem and checksum maps fixed. -/
theorem stage_pipeline_idempotent (As Am : List Artifact) (li : List LiveTVItem)
    (fs cs : PathMap) (hc : compatible (As ++ Am))
    (hAsne : ∀ a ∈ As, a.rel ≠ livePath) (hAmne : ∀ a ∈ Am, a.rel ≠ livePath) :
    let t1 := processAll [] As (⟨fs, cs, 0, 0, 0, []⟩ : SyncState)
    let t2 := processAll [] Am (⟨t1.fs, t1.cs, 0, 0, 0, []⟩ : SyncState)
    let r3 := create_live_m3u_file li t2.fs t2.cs []
    let u1 := processAll [] As (⟨r3.fs, r3.cs, 0, 0, 0, []⟩ : SyncState)
    let u2 := processAll [] Am (⟨u1.fs, u1.cs, 0, 0, 0, []⟩ : SyncState)
    let v3 := create_live_m3u_file li u2.fs u2.cs []
    u1.updated + u2.updated + v3.updated = 0 ∧ v3.fs = r3.fs ∧ v3.cs = r3.cs := by
  intro t1 t2 r3 u1 u2 v3
  have hcAs : compatible As := fun a ha b hb hrel =>
    hc a (List.mem_append_left Am ha) b (List.mem_append_left Am hb) hrel
  have hcAm : compatible Am := fun a ha b hb hrel =>
    hc a (List.mem_append_right As ha) b (List.mem_append_right As hb) hrel
  have e1 : ∀ a ∈ As, syncedAt t1.fs t1.cs a :=
    processAll_establishes As ⟨fs, cs, 0, 0, 0, []⟩ hcAs
  have e2a : ∀ a ∈ As, syncedAt t2.fs t2.cs a := fun a ha =>
    processAll_frame [] Am a ⟨t1.fs, t1.cs, 0, 0, 0, []⟩
      (fun b hb hrel =>
        hc b (List.mem_append_right As hb) a (List.mem_append_left Am ha) hrel)
      (e1 a ha)
  have e2b : ∀ a ∈ Am, syncedAt t2.fs t2.cs a :=
    processAll_establishes Am ⟨t1.fs, t1.cs, 0, 0, 0, []⟩ hcAm
  have e3a : ∀ a ∈ As, syncedAt r3.fs r3.cs a := fun a ha =>
    create_live_frame li t2.fs t2.cs [] a (hAsne a ha) (e2a a ha)
  have e3b : ∀ a ∈ Am, syncedAt r3.fs r3.cs a := fun a ha =>
    create_live_frame li t2.fs t2.cs [] a (hAmne a ha) (e2b a ha)
  have hu1 : u1 = ⟨r3.fs, r3.cs, 0, 0 + As.length, 0, []⟩ :=
    processAll_of_synced [] As ⟨r3.fs, r3.cs, 0, 0, 0, []⟩ e3a
  have hu1fs : u1.fs = r3.fs := congrArg SyncState.fs hu1
  have hu1cs : u1.cs = r3.cs := congrArg SyncState.cs hu1
  have hu1u : u1.updated = 0 := congrArg SyncState.updated hu1
  have e4b : ∀ a ∈ Am, syncedAt u1.fs u1.cs a := by
    rw [hu1fs, hu1cs]; exact e3b
  have hu2 : u2 = ⟨u1.fs, u1.cs, 0, 0 + Am.length, 0, []⟩ :=
    processAll_of_synced [] Am ⟨u1.fs, u1.cs, 0, 0, 0, []⟩ e4b
  have hu2fs : u2.fs = r3.fs := (congrArg SyncState.fs hu2).trans hu1fs
  have hu2cs : u2.cs = r3.cs := (congrArg SyncState.cs hu2).trans hu1cs
  have hu2u : u2.updated = 0 := congrArg SyncState.updated hu2
  cases hl : li.isEmpty with
  | true =>
    have hnil : li = [] := List.isEmpty_iff.mp hl
    subst hnil
    have hr3e : r3 = ⟨eraseA t2.fs livePath, t2.cs, 0, 0, []⟩ :=
      create_live_empty_erases t2.fs t2.cs [] (by simp)
    have hlook : lookupA u2.fs livePath = none := by
      rw [hu2fs, congrArg LiveResult.fs hr3e, lookupA_eraseA]
      simp
    have hv3 : v3 = ⟨eraseA u2.fs livePath, u2.cs, 0, 0, []⟩ :=
      create_live_empty_erases u2.fs u2.cs [] (by simp)
    have hv3fs : v3.fs = r3.fs := by
      rw [congrArg LiveResult.fs hv3]
      show eraseA u2.fs livePath = r3.fs
      rw [eraseA_of_lookup_none u2.fs livePath hlook, hu2fs]
    have hv3cs : v3.cs = r3.cs := (congrArg LiveResult.cs hv3).trans hu2cs
    have hv3u : v3.updated = 0 := congrArg LiveResult.updated hv3
    exact ⟨by omega, hv3fs, hv3cs⟩
  | false =>
    have eLive3 : syncedAt r3.fs r3.cs (liveArtifact li) :=
      create_live_establishes li t2.fs t2.cs [] hl (by simp)
    have eLive4 : syncedAt u2.fs u2.cs (liveArtifact li) := by
      rw [hu2fs, hu2cs]; exact eLive3
    have hv3 : v3 = ⟨u2.fs, u2.cs, 0, 0, []⟩ :=
      create_live_of_synced li u2.fs u2.cs [] hl eLive4
    have hv3fs : v3.fs = r3.fs := (congrArg LiveResult.fs hv3).trans hu2fs
    have hv3cs : v3.cs = r3.cs := (congrArg LiveResult.cs hv3).trans hu2cs
    have hv3u : v3.updated = 0 := congrArg LiveResult.updated hv3
    exact ⟨by omega, hv3fs, hv3cs⟩

/-! ## New-flag and fingerprint lemmas -/

theorem updateFlags_snd_iff (fs cs : PathMap) (a : Artifact) :
    (updateFlags fs cs a).2 = true ↔
      (lookupA fs a.rel = none ∨ lookupA cs a.rel = none) := by
  unfold updateFlags existsA
  cases hcs : lookupA cs a.rel with
  | none => simp [hcs]
  | some stored =>
    by_cases hs : stored = calculate_content_hash a.content <;>
      cases hfs : lookupA fs a.rel <;> simp [hcs, hs, hfs]

theorem toHexChars_length (bs : List Nat) :
    (bs.foldr (fun b acc => hexChar (b / 16 % 16) :: hexChar (b % 16) :: acc)
      []).length = 2 * bs.length := by
  induction bs with
  | nil => rfl
  | cons b t ih => simp [List.foldr_cons, ih]; omega

theorem toHex_length (bs : List Nat) : (toHex bs).length = 2 * bs.length := by
  show (String.mk _).length = 2 * bs.length
  show (bs.foldr _ []).length = 2 * bs.length
  exact toHexChars_length bs

theorem md5Digest_length (msg : List Nat) : (md5Digest msg).length = 16 := by
  unfold md5Digest
  rcases md5Run (0x67452301, 0xefcdab89, 0x98badcfe, 0x10325476) [] (md5Pad msg)
    with ⟨a, b, c, d⟩
  simp [wordLE]

theorem md5Hex_length (s : String) : (md5Hex s).length = 32 := by
  unfold md5Hex
  rw [toHex_length, md5Digest_length]

theorem getD_mem_or (l : List Char) (d : Char) :
    ∀ n, l.getD n d = d ∨ l.getD n d ∈ l := by
  induction l with
  | nil => intro n; left; cases n <;> rfl
  | cons a t ih =>
    intro n
    cases n with
    | zero => right; exact List.mem_cons_self a t
    | succ m =>
      rcases ih m with h | h
      · left; exact h
      · right; exact List.mem_cons_of_mem a h

theorem hexChar_mem (n : Nat) : hexChar n ∈ "0123456789abcdef".data := by
  unfold hexChar
  rcases getD_mem_or "0123456789abcdef".data '0' n with h | h
  · rw [h]; decide
  · exact h

theorem toHex_chars (bs : List Nat) :
    ∀ c ∈ (toHex bs).data, c ∈ "0123456789abcdef".data := by
  show ∀ c ∈ bs.foldr _ [], _
  induction bs with
  | nil => intro c hc; cases hc
  | cons b t ih =>
    intro c hc
    rw [List.foldr_cons] at hc
    rcases List.mem_cons.mp hc with rfl | hc2
    · exact hexChar_mem _
    · rcases List.mem_cons.mp hc2 with rfl | hc3
      · exact hexChar_mem _
      · exact ih c hc3

/-! ## Parser-count lemmas -/

theorem findSubAux_singleton (c : Char) (l : List Char) :
    ∀ i, (findSubAux [c] l i).isSome = true ↔ c ∈ l := by
  induction l with
  | nil => intro i; unfold findSubAux; simp [List.isPrefixOf]
  | cons d t ih =>
    intro i
    unfold findSubAux
    by_cases h : c = d
    · subst h
      have hp : List.isPrefixOf [c] (c :: t) = true := by simp [List.isPrefixOf]
      rw [if_pos hp]
      simp
    · have hp : List.isPrefixOf [c] (d :: t) = false := by simp [List.isPrefixOf, h]
      rw [if_neg (by simp [hp])]
      simp [h, ih]

theorem findSub_singleton (c : Char) (l : List Char) :
    (findSub [c] l).isSome = l.contains c := by
  unfold findSub
  cases hc : l.contains c with
  | true => exact (findSubAux_singleton c l 0).mpr (List.elem_iff.mp hc)
  | false =>
    have hnm : ¬ c ∈ l := fun hm => by
      have hc' : List.elem c l = false := hc
      rw [List.elem_iff.mpr hm] at hc'
      cases hc'
    cases hs : (findSubAux [c] l 0).isSome with
    | false => rfl
    | true => exact absurd ((findSubAux_singleton c l 0).mp hs) hnm

theorem parseSegment_isSome (seg : String) :
    (parseSegment seg).isSome = (pyStripL seg.data).contains '\n' := by
  unfold parseSegment
  rw [← findSub_singleton '\n' (pyStripL seg.data)]
  cases h : findSub ['\n'] (pyStripL seg.data) <;> simp [h]

/-! ## Classifier-output lemmas -/

theorem classifyStep_movies (sf mf lf sgf mgf lgf : List String) (all : Bool)
    (acc : Categorized) (i : RawItem) (m : MovieItem)
    (h : m ∈ (classifyStep sf mf lf sgf mgf lgf all acc i).movies) :
    m ∈ acc.movies ∨ movieDecision mf mgf all i = some m := by
  unfold classifyStep at h
  cases hsd : seriesDecision sf sgf all i with
  | some s => rw [hsd] at h; exact Or.inl h
  | none =>
    rw [hsd] at h
    cases hmd : movieDecision mf mgf all i with
    | some mm =>
      rw [hmd] at h
      simp only [List.mem_append, List.mem_singleton] at h
      rcases h with h | rfl
      · exact Or.inl h
      · exact Or.inr rfl
    | none =>
      rw [hmd] at h
      cases hld : liveDecision lf lgf all i <;> rw [hld] at h <;> exact Or.inl h

theorem foldl_classify_movies (sf mf lf sgf mgf lgf : List String) (all : Bool)
    (items : List RawItem) (acc : Categorized) (m : MovieItem)
    (h : m ∈ (items.foldl (classifyStep sf mf lf sgf mgf lgf all) acc).movies) :
    m ∈ acc.movies ∨ ∃ i ∈ items, movieDecision mf mgf all i = some m := by
  induction items generalizing acc with
  | nil => exact Or.inl h
  | cons i t ih =>
    rw [List.foldl_cons] at h
    rcases ih (classifyStep sf mf lf sgf mgf lgf all acc i) h with hacc | ⟨j, hj, hjeq⟩
    · rcases classifyStep_movies sf mf lf sgf mgf lgf all acc i m hacc with h1 | h2
      · exact Or.inl h1
      · exact Or.inr ⟨i, List.mem_cons_self i t, h2⟩
    · exact Or.inr ⟨j, List.mem_cons_of_mem i hj, hjeq⟩

theorem movieDecision_fields (mf mgf : List String) (all : Bool) (i : RawItem)
    (m : MovieItem) (h : movieDecision mf mgf all i = some m) :
    m.year = none ∧ m.title = i.title ∧ m.url = i.url := by
  unfold movieDecision at h
  by_cases h1 : (!mf.isEmpty || all) = true
  · rw [if_pos h1] at h
    by_cases h2 : ((mf.map pyLowerS).contains (pyLowerS i.title) || all)
        && mgf.contains i.group_title
    · rw [if_pos h2] at h
      cases h
      exact ⟨rfl, rfl, rfl⟩
    · rw [if_neg h2] at h; cases h
  · rw [if_neg h1] at h; cases h

/-- The series item the classifier builds from an entry and its parsed
series info (lines 157-167). -/
def seriesItemOf (item : RawItem) (info : SeriesInfo) : SeriesItem :=
  { title := item.title
    url := item.url
    group_title := item.group_title
    tvg_id := item.tvg_id
    tvg_name := item.tvg_name
    tvg_logo := item.tvg_logo
    series_name := some info.series_name
    season := some info.season
    episode := some info.episode }

/-! ## Concrete inputs for counterexamples and witnesses -/

def wDetail : Detail := { dtype := "t", name := "n", display := "d" }

def wArtifact : Artifact := { rel := "p", content := "c", detail := wDetail }

def wSynced : SyncState :=
  { fs := [("p", "c")], cs := [("p", calculate_content_hash "c")]
    updated := 0, unchanged := 0, newFiles := 0, newItems := [] }

def wFresh : SyncState :=
  { fs := [], cs := [], updated := 0, unchanged := 0, newFiles := 0, newItems := [] }

def wEpisode : SeriesItem :=
  { title := "W S01 E02", url := "wu", group_title := "g", tvg_id := ""
    tvg_name := "", tvg_logo := "", season := some 1, episode := some 2
    series_name := some "W" }

def wMovie : MovieItem :=
  { title := "WM", url := "wmu", group_title := "g", tvg_id := ""
    tvg_name := "", tvg_logo := "", year := none }

def wLive : LiveTVItem :=
  { title := "WL", url := "wlu", group_title := "g", tvg_id := ""
    tvg_name := "", tvg_logo := "" }

def collidingEp1 : SeriesItem :=
  { title := "A S01 E01", url := "u1", group_title := "", tvg_id := ""
    tvg_name := "", tvg_logo := "", season := some 1, episode := some 1
    series_name := some "A" }

def collidingEp2 : SeriesItem := { collidingEp1 with url := "u2" }

def cMovie : MovieItem :=
  { title := "M", url := "u", group_title := "", tvg_id := "", tvg_name := ""
    tvg_logo := "", year := none }

/-! ## Claim theorems -/

/-- C1 (amended): provided no two series/movie artifacts of the classified
set target the same output path with different content, a second run of the
sync stage over the same classified-item set and the state produced by the
first run performs zero writes and leaves both the filesystem and the
Checksum Store identical. -/
theorem syncStage_idempotent_of_compatible
    (si : List SeriesItem) (mi : List MovieItem) (li : List LiveTVItem)
    (fs cs : PathMap)
    (hc : compatible (seriesArtifacts si ++ mi.map movieArtifact)) :
    (syncStage si mi li (syncStage si mi li fs cs []).fs
        (syncStage si mi li fs cs []).cs []).totalUpdated = 0 ∧
    (syncStage si mi li (syncStage si mi li fs cs []).fs
        (syncStage si mi li fs cs []).cs []).fs =
      (syncStage si mi li fs cs []).fs ∧
    (syncStage si mi li (syncStage si mi li fs cs []).fs
        (syncStage si mi li fs cs []).cs []).cs =
      (syncStage si mi li fs cs []).cs := by
  obtain ⟨h1, h2, h3⟩ :=
    stage_pipeline_idempotent (seriesArtifacts si) (mi.map movieArtifact) li fs cs
      hc (seriesArtifacts_rel_ne_live si) (movieArtifacts_rel_ne_live mi)
  exact ⟨h1, h2, h3⟩

/-- C1 (witness): a one-episode, one-movie, one-channel set on an empty
filesystem: the second run writes nothing and the state is fixed. -/
theorem syncStage_idempotent_of_compatible_witness :
    (syncStage [wEpisode] [wMovie] [wLive]
        (syncStage [wEpisode] [wMovie] [wLive] [] [] []).fs
        (syncStage [wEpisode] [wMovie] [wLive] [] [] []).cs []).totalUpdated = 0 ∧
    (syncStage [wEpisode] [wMovie] [wLive]
        (syncStage [wEpisode] [wMovie] [wLive] [] [] []).fs
        (syncStage [wEpisode] [wMovie] [wLive] [] [] []).cs []).fs =
      (syncStage [wEpisode] [wMovie] [wLive] [] [] []).fs ∧
    (syncStage [wEpisode] [wMovie] [wLive]
        (syncStage [wEpisode] [wMovie] [wLive] [] [] []).fs
        (syncStage [wEpisode] [wMovie] [wLive] [] [] []).cs []).cs =
      (syncStage [wEpisode] [wMovie] [wLive] [] [] []).cs :=
  syncStage_idempotent_of_compatible [wEpisode] [wMovie] [wLive] [] [] (by decide)

set_option maxRecDepth 20000 in
/-- C1 (counterexample): two classified episodes with the same series name,
season and episode but different URLs map to the same STRM path; the second
sync run rewrites both artifacts (two writes, not zero), refuting the claim
as stated for arbitrary classified-item sets. -/
theorem syncStage_second_run_rewrites_colliding_artifacts :
    ¬ (syncStage [collidingEp1, collidingEp2] [] []
        (syncStage [collidingEp1, collidingEp2] [] [] [] [] []).fs
        (syncStage [collidingEp1, collidingEp2] [] [] [] [] []).cs
        []).totalUpdated = 0 := by
  decide

/-- C2: an artifact needs a write exactly when the file is missing on disk,
the on-disk content differs from the intended content, the store has no
entry for its path, or the stored entry differs from the content's
fingerprint; and when none of these holds the artifact only bumps the
unchanged counter, leaving filesystem and store untouched. -/
theorem write_decision_characterization (a : Artifact) (s : SyncState)
    (fail : List String) :
    ((updateFlags s.fs s.cs a).1 = true ↔
      (existsA s.fs a.rel = false ∨ lookupA s.fs a.rel ≠ some a.content ∨
        lookupA s.cs a.rel = none ∨
        ∃ stored, lookupA s.cs a.rel = some stored ∧
          stored ≠ calculate_content_hash a.content)) ∧
    ((updateFlags s.fs s.cs a).1 = false →
      processArtifact fail a s = { s with unchanged := s.unchanged + 1 }) := by
  constructor
  · unfold updateFlags existsA check_file_content
    cases hcs : lookupA s.cs a.rel with
    | none => simp [hcs]
    | some stored =>
      by_cases hs : stored = calculate_content_hash a.content
      · cases hfs : lookupA s.fs a.rel with
        | none => simp [hcs, hs, hfs]
        | some v =>
          by_cases hv : v = a.content <;> simp [hcs, hs, hfs, hv]
      · simp [hcs, hs]
  · exact fun hf =>
      processArtifact_of_synced fail a s
        ((updateFlags_fst_false_iff s.fs s.cs a).mp hf)

/-- C2 (witness): a file already on disk with the intended content and a
matching store entry is counted unchanged and the state is untouched. -/
theorem write_decision_characterization_witness :
    ((updateFlags wSynced.fs wSynced.cs wArtifact).1 = true ↔
      (existsA wSynced.fs wArtifact.rel = false ∨
        lookupA wSynced.fs wArtifact.rel ≠ some wArtifact.content ∨
        lookupA wSynced.cs wArtifact.rel = none ∨
        ∃ stored, lookupA wSynced.cs wArtifact.rel = some stored ∧
          stored ≠ calculate_content_hash wArtifact.content)) ∧
    processArtifact [] wArtifact wSynced =
      { wSynced with unchanged := wSynced.unchanged + 1 } :=
  ⟨(write_decision_characterization wArtifact wSynced []).1,
   (write_decision_characterization wArtifact wSynced []).2 (by decide)⟩

/-- C3 (amended): for an artifact the engine writes (write needed and not
failing), the write is counted in `updated`, and the artifact is reported
new exactly when the file was missing on disk OR the Checksum Store had no
entry for its path; an on-disk file with a store entry whose bytes changed
is counted updated but not new. -/
theorem reported_new_characterization (a : Artifact) (s : SyncState)
    (fail : List String) (hfl : a.rel ∉ fail)
    (hw : (updateFlags s.fs s.cs a).1 = true) :
    (processArtifact fail a s).updated = s.updated + 1 ∧
    ((processArtifact fail a s).newFiles = s.newFiles + 1 ↔
      (lookupA s.fs a.rel = none ∨ lookupA s.cs a.rel = none)) := by
  have hfc : fail.contains a.rel = false := by
    cases hfc : fail.contains a.rel
    · rfl
    · exact absurd (List.elem_iff.mp hfc) hfl
  rw [processArtifact_eq]
  simp only [hw, hfc, if_true, Bool.false_eq_true, if_false]
  refine ⟨by trivial, ?_⟩
  cases hnf : (updateFlags s.fs s.cs a).2 with
  | true =>
    have h := (updateFlags_snd_iff s.fs s.cs a).mp hnf
    simp [h]
  | false =>
    have h : ¬ (lookupA s.fs a.rel = none ∨ lookupA s.cs a.rel = none) :=
      fun hh => by rw [(updateFlags_snd_iff s.fs s.cs a).mpr hh] at hnf; cases hnf
    simp only [hnf, Bool.false_eq_true, if_false, h, iff_false]
    omega

/-- C3 (witness): a fresh artifact (no file, no store entry) is written and
reported new. -/
theorem reported_new_characterization_witness :
    (processArtifact [] wArtifact wFresh).updated = wFresh.updated + 1 ∧
    ((processArtifact [] wArtifact wFresh).newFiles = wFresh.newFiles + 1 ↔
      (lookupA wFresh.fs wArtifact.rel = none ∨
        lookupA wFresh.cs wArtifact.rel = none)) :=
  reported_new_characterization wArtifact wFresh [] (by decide) (by decide)

/-- C3 (counterexample): a movie STRM file already on disk with exactly the
intended bytes but no Checksum Store entry is rewritten and reported as NEW
(`new_files_count = 1`) although it existed on disk before the write,
refuting "new iff the file did not exist on disk". -/
theorem existing_file_without_store_entry_reported_new :
    lookupA [("movies/M/M.strm", "u")] "movies/M/M.strm" = some "u" ∧
    (create_strm_files_for_movies [cMovie] [("movies/M/M.strm", "u")] [] []).updated = 1 ∧
    (create_strm_files_for_movies [cMovie] [("movies/M/M.strm", "u")] [] []).newFiles = 1 := by
  decide

/-- C4: an artifact whose write raises is skipped without touching the
filesystem, the Checksum Store, or any counter, and processing continues
with the remaining artifacts from the unchanged state. -/
theorem write_failure_leaves_store_and_continues (a : Artifact) (s : SyncState)
    (rest : List Artifact) (fail : List String) (hmem : a.rel ∈ fail)
    (hw : (updateFlags s.fs s.cs a).1 = true) :
    processArtifact fail a s = s ∧
    processAll fail (a :: rest) s = processAll fail rest s := by
  have h1 : processArtifact fail a s = s := by
    rw [processArtifact_eq]
    have hfc : fail.contains a.rel = true := List.elem_iff.mpr hmem
    rw [if_pos hw, if_pos hfc]
  exact ⟨h1, by rw [processAll_cons, h1]⟩

/-- C4 (witness): a failing write on a needed artifact leaves the state
exactly as it was and the run continues with the rest. -/
theorem write_failure_leaves_store_and_continues_witness :
    processArtifact ["p"] wArtifact wFresh = wFresh ∧
    processAll ["p"] (wArtifact :: []) wFresh = processAll ["p"] [] wFresh :=
  write_failure_leaves_store_and_continues wArtifact wFresh [] ["p"]
    (by decide) (by decide)

/-- C5: a run with an empty live collection deletes the aggregate manifest
(the path no longer resolves afterwards), reports zero writes and zero new
items, and leaves the Checksum Store untouched. -/
theorem empty_live_deletes_stale_manifest (fs cs : PathMap)
    (fail : List String) (hmem : livePath ∉ fail) :
    create_live_m3u_file [] fs cs fail = ⟨eraseA fs livePath, cs, 0, 0, []⟩ ∧
    lookupA (create_live_m3u_file [] fs cs fail).fs livePath = none := by
  have h := create_live_empty_erases fs cs fail hmem
  refine ⟨h, ?_⟩
  rw [congrArg LiveResult.fs h]
  show lookupA (eraseA fs livePath) livePath = none
  rw [lookupA_eraseA]
  simp

/-- C5 (witness): a stale `live.m3u` on disk is removed by an empty-live
run. -/
theorem empty_live_deletes_stale_manifest_witness :
    create_live_m3u_file [] [("live.m3u", "x")] [] [] =
      ⟨eraseA [("live.m3u", "x")] livePath, [], 0, 0, []⟩ ∧
    lookupA (create_live_m3u_file [] [("live.m3u", "x")] [] []).fs livePath = none :=
  empty_live_deletes_stale_manifest [("live.m3u", "x")] [] [] (by decide)

/-- C6 (amended): the parser produces one Entry per delimiter-introduced
segment whose stripped text still contains a newline (header plus locator);
newline-free segments are dropped, so the entry count equals the number of
such segments, not the number of delimiter occurrences. -/
theorem parse_count_eq_segments_with_locator (content : String) :
    (parse_m3u_file content).length =
      ((extinfSegments content).filter
        (fun seg => (pyStripL seg.data).contains '\n')).length := by
  unfold parse_m3u_file
  generalize extinfSegments content = segs
  induction segs with
  | nil => rfl
  | cons s t ih =>
    cases hp : parseSegment s with
    | none =>
      have hc : (pyStripL s.data).contains '\n' = false := by
        rw [← parseSegment_isSome, hp]; rfl
      rw [List.filterMap_cons, List.filter_cons, hp, if_neg (by rw [hc]; decide)]
      exact ih
    | some r =>
      have hc : (pyStripL s.data).contains '\n' = true := by
        rw [← parseSegment_isSome, hp]; rfl
      rw [List.filterMap_cons, List.filter_cons, hp, if_pos hc]
      rw [List.length_cons, List.length_cons, ih]

/-- C6 (counterexample): the document `"x#EXTINF:abc"` has exactly one
delimiter occurrence, at position 1 (after position 0), yet the parser
produces zero entries because the sole segment has no newline; the claimed
count (one entry per delimiter occurrence after position 0) is wrong. -/
theorem parse_drops_newline_free_segment :
    (parse_m3u_file "x#EXTINF:abc").length = 0 ∧
    (extinfSegments "x#EXTINF:abc").length = 1 ∧
    findSub "#EXTINF:".data (stripMarker "x#EXTINF:abc").data = some 1 := by
  decide

/-- C7: an entry whose title parses as a series episode, whose series name
passes the series name filter, whose full title passes the movies name
filter, and whose group is in both categories' group filters, lands in the
series collection only: the movies and live collections stay empty. -/
theorem series_precedence_over_movies_and_live (sf mf lf : List String)
    (sg mg lg : String) (item : RawItem) (info : SeriesInfo)
    (hp : parse_series_info item.title = some info)
    (hsname : (sf.map pyLowerS).contains (pyLowerS info.series_name) = true)
    (hmname : (mf.map pyLowerS).contains (pyLowerS item.title) = true)
    (hsg : (groupFilters sg).contains item.group_title = true)
    (hmg : (groupFilters mg).contains item.group_title = true) :
    (categorize_items sf mf lf sg mg lg [item] false).series =
      [seriesItemOf item info] ∧
    (categorize_items sf mf lf sg mg lg [item] false).movies = [] ∧
    (categorize_items sf mf lf sg mg lg [item] false).live = [] := by
  have hsf : sf.isEmpty = false := by
    cases sf with
    | nil => simp at hsname
    | cons x xs => rfl
  have hsd : seriesDecision sf (groupFilters sg) false item =
      some (seriesItemOf item info) := by
    unfold seriesDecision
    rw [if_pos (show (!sf.isEmpty || false) = true by rw [hsf]; rfl), hp]
    dsimp only
    rw [if_pos (show (((sf.map pyLowerS).contains (pyLowerS info.series_name)
        || false) && (groupFilters sg).contains item.group_title) = true by
      rw [hsname, hsg]; rfl)]
    rfl
  unfold categorize_items
  simp only [List.foldl_cons, List.foldl_nil]
  unfold classifyStep
  rw [hsd]
  exact ⟨rfl, rfl, rfl⟩

/-- C7 (witness): a concrete entry matching both a series filter and a
movies filter with matching groups is classified as series only. -/
theorem series_precedence_over_movies_and_live_witness :
    (categorize_items ["breaking bad"] ["breaking bad s01 e01"] [] "G" "G" ""
      [{ title := "Breaking Bad S01 E01", url := "u", tvg_id := ""
         tvg_name := "", tvg_logo := "", group_title := "G" }] false).series =
      [seriesItemOf
        { title := "Breaking Bad S01 E01", url := "u", tvg_id := ""
          tvg_name := "", tvg_logo := "", group_title := "G" }
        ⟨"Breaking Bad", 1, 1⟩] ∧
    (categorize_items ["breaking bad"] ["breaking bad s01 e01"] [] "G" "G" ""
      [{ title := "Breaking Bad S01 E01", url := "u", tvg_id := ""
         tvg_name := "", tvg_logo := "", group_title := "G" }] false).movies = [] ∧
    (categorize_items ["breaking bad"] ["breaking bad s01 e01"] [] "G" "G" ""
      [{ title := "Breaking Bad S01 E01", url := "u", tvg_id := ""
         tvg_name := "", tvg_logo := "", group_title := "G" }] false).live = [] :=
  series_precedence_over_movies_and_live ["breaking bad"]
    ["breaking bad s01 e01"] [] "G" "G" ""
    { title := "Breaking Bad S01 E01", url := "u", tvg_id := ""
      tvg_name := "", tvg_logo := "", group_title := "G" }
    ⟨"Breaking Bad", 1, 1⟩ (by decide) (by decide) (by decide) (by decide)
    (by decide)

/-- C8 (amended): every write stores `calculate_content_hash` of the exact
intended content under the artifact's path; for nonempty content this is the
32-character lowercase hex MD5 digest of the content's UTF-8 bytes, while
the empty string stores the literal sentinel instead of a digest. -/
theorem stored_fingerprint_is_md5_hex (a : Artifact) (s : SyncState)
    (fail : List String) (hmem : a.rel ∉ fail)
    (hw : (updateFlags s.fs s.cs a).1 = true) :
    lookupA (processArtifact fail a s).cs a.rel =
      some (calculate_content_hash a.content) ∧
    (¬ a.content = "" → calculate_content_hash a.content = md5Hex a.content) ∧
    (md5Hex a.content).length = 32 ∧
    (∀ c ∈ (md5Hex a.content).data, c ∈ "0123456789abcdef".data) := by
  have hfc : fail.contains a.rel = false := by
    cases hfc : fail.contains a.rel
    · rfl
    · exact absurd (List.elem_iff.mp hfc) hmem
  refine ⟨?_, ?_, md5Hex_length a.content,
    toHex_chars (md5Digest (utf8Bytes a.content))⟩
  · rw [processArtifact_eq]
    simp only [hw, hfc, if_true, Bool.false_eq_true, if_false]
    show lookupA (insertA s.cs a.rel (calculate_content_hash a.content)) a.rel = _
    rw [lookupA_insertA]
    simp
  · intro hne
    have hie : a.content.isEmpty = false := by
      cases hi : a.content.isEmpty
      · rfl
      · exact absurd ((String.isEmpty_iff _).mp hi) hne
    unfold calculate_content_hash
    simp [hie]

/-- C8 (witness): a write of the nonempty content `"c"` stores its MD5 hex
digest. -/
theorem stored_fingerprint_is_md5_hex_witness :
    lookupA (processArtifact [] wArtifact wFresh).cs wArtifact.rel =
      some (calculate_content_hash wArtifact.content) ∧
    calculate_content_hash wArtifact.content = md5Hex wArtifact.content ∧
    (md5Hex wArtifact.content).length = 32 :=
  ⟨(stored_fingerprint_is_md5_hex wArtifact wFresh [] (by decide) (by decide)).1,
   (stored_fingerprint_is_md5_hex wArtifact wFresh [] (by decide) (by decide)).2.1
     (by decide),
   (stored_fingerprint_is_md5_hex wArtifact wFresh [] (by decide) (by decide)).2.2.1⟩

/-- C8 (counterexample): writing an empty-content artifact stores the
18-character literal sentinel `"empty_content_hash"`, which is neither 32
characters long nor the MD5 digest of the empty string; the claim's "hex
digest for every content value, including the empty string" fails. -/
theorem empty_content_stores_sentinel_not_digest :
    (processArtifact [] { rel := "p", content := "", detail := wDetail }
        wFresh).cs = [("p", "empty_content_hash")] ∧
    calculate_content_hash "" = "empty_content_hash" ∧
    ¬ ("empty_content_hash" : String).length = 32 ∧
    ¬ "empty_content_hash" = md5Hex "" := by
  decide

/-- C9: with an unset or empty groups environment variable, splitting on
commas yields the one-element list containing the empty string, so an entry
otherwise passing the series name filter is classified exactly when its
grouping label is the empty string (membership is exact, case-sensitive
string equality). -/
theorem empty_groups_env_admits_only_empty_group (sf : List String)
    (all : Bool) (item : RawItem) (info : SeriesInfo)
    (hp : parse_series_info item.title = some info)
    (hname : ((sf.map pyLowerS).contains (pyLowerS info.series_name) || all)
      = true) :
    groupFilters "" = [""] ∧
    (seriesDecision sf (groupFilters "") all item).isSome =
      (item.group_title == "") := by
  have hfe : groupFilters "" = [""] := rfl
  refine ⟨hfe, ?_⟩
  have hb : (!sf.isEmpty || all) = true := by
    cases all with
    | true => simp
    | false =>
      simp only [Bool.or_false] at hname
      cases sf with
      | nil => simp at hname
      | cons x xs => rfl
  unfold seriesDecision
  rw [hp, hfe]
  simp only [hb, if_true, hname, Bool.true_and]
  have hcontains : ([""] : List String).contains item.group_title =
      (item.group_title == "") := by
    show List.elem item.group_title [""] = (item.group_title == "")
    cases hgt : item.group_title == "" <;> simp [List.elem, hgt]
  rw [hcontains]
  cases hgt : item.group_title == "" <;> simp [hgt]

/-- C9 (witness): with an empty `SERIES_GROUPS`, an entry passing the name
filter is admitted exactly when its group label is empty; here the label is
`""` and the entry is classified. -/
theorem empty_groups_env_admits_only_empty_group_witness :
    groupFilters "" = [""] ∧
    (seriesDecision ["w"] (groupFilters "") false
      { title := "W S01 E02", url := "u", tvg_id := "", tvg_name := ""
        tvg_logo := "", group_title := "" }).isSome =
      (("" : String) == "") :=
  empty_groups_env_admits_only_empty_group ["w"] false
    { title := "W S01 E02", url := "u", tvg_id := "", tvg_name := ""
      tvg_logo := "", group_title := "" }
    ⟨"W", 1, 2⟩ (by decide) (by decide)

/-- C10: every movie the classifier produces has `year = none`, so the movie
folder name is just the stripped title, and the artifact's output path is
built solely from the sanitized title — never from a separately extracted
year. -/
theorem classified_movies_have_no_year (sf mf lf : List String)
    (sg mg lg : String) (items : List RawItem) (all : Bool) (m : MovieItem)
    (h : m ∈ (categorize_items sf mf lf sg mg lg items all).movies) :
    m.year = none ∧ movieFolderName m = pyStripS m.title ∧
    (movieArtifact m).rel =
      normJoin ["movies", sanitize_filename (pyStripS m.title),
        sanitize_filename (pyStripS m.title) ++ ".strm"] := by
  unfold categorize_items at h
  rcases foldl_classify_movies sf mf lf (groupFilters sg) (groupFilters mg)
      (groupFilters lg) all items ⟨[], [], []⟩ m h with habs | ⟨i, _, heq⟩
  · cases habs
  · have hy := (movieDecision_fields mf (groupFilters mg) all i m heq).1
    have hfold : movieFolderName m = pyStripS m.title := by
      unfold movieFolderName
      rw [hy]
    refine ⟨hy, hfold, ?_⟩
    show normJoin ["movies", sanitize_filename (movieFolderName m),
      sanitize_filename (movieFolderName m) ++ ".strm"] = _
    rw [hfold]

/-- C10 (witness): the single classified movie of a concrete run has no year
and its artifact path is the sanitized stripped title. -/
theorem classified_movies_have_no_year_witness :
    wMovie.year = none ∧ movieFolderName wMovie = pyStripS wMovie.title ∧
    (movieArtifact wMovie).rel =
      normJoin ["movies", sanitize_filename (pyStripS wMovie.title),
        sanitize_filename (pyStripS wMovie.title) ++ ".strm"] :=
  classified_movies_have_no_year ["x"] ["wm"] [] "g" "g" ""
    [{ title := "WM", url := "wmu", tvg_id := "", tvg_name := ""
       tvg_logo := "", group_title := "g" }] false wMovie (by decide)

end M3u2strm
